import Mathlib

/-!
Shallow embedding of the brewing-mcp ingredient identity resolution and
substitution engine (`packages/mcp-grocy/src/mcp_grocy/tools.py`) together
with the shared colour-unit helpers
(`packages/brewing-common/src/brewing_common/units.py`), and theorems
settling the specification claims about them.

Modelling conventions:
* Python `float` is modelled as `ℚ` (the scores and colour values involved
  are all produced by exact decimal arithmetic, so no rounding behaviour is
  load-bearing for the claims).
* Python strings are modelled as `List Char`; `str.lower`/`str.upper` are
  modelled ASCII-wise via `Char.toLower`/`Char.toUpper`.
* Python `re.search` over the handful of fixed patterns in the source is
  modelled by a small backtracking matcher (`rxM`) over a data-level
  description of each pattern (literal runs, greedy character classes with
  bounds, word boundaries, lookaheads, alternation) — exactly the constructs
  those patterns use.  The matcher takes fuel; fuel only bounds recursion
  depth and every concrete evaluation below uses an amply sufficient amount.
* The free-form `details` rationale dictionary attached to each candidate is
  not modelled: no claim inspects it and it feeds back into no decision.
-/

-- The Batteries rational-number operations are `@[irreducible]`; concrete
-- evaluations of the engine below go through them, so they are made
-- unfoldable for this file.
attribute [local semireducible] Rat.ofScientific Rat.mul Rat.inv Rat.add Rat.sub

namespace Brewing

/-- ASCII lowercase of a Python string (`str.lower`). -/
def lowerL (s : List Char) : List Char := s.map Char.toLower

/-- ASCII uppercase of a Python string (`str.upper`). -/
def upperL (s : List Char) : List Char := s.map Char.toUpper

/-- Convenience: the character list of a string literal. -/
def str (s : String) : List Char := s.data

/-- Python `a in b` on strings (substring containment). -/
def infixOf (a b : List Char) : Bool := decide (a <:+: b)

/-- Python `str.replace(c, ' ')` for the `-` and `/` separators. -/
def replSep (s : List Char) : List Char :=
  s.map (fun c => if c = '-' ∨ c = '/' then ' ' else c)

/-- Python `str.split()` with no arguments: split on whitespace runs,
dropping empty pieces. -/
def splitWs (s : List Char) : List (List Char) :=
  (s.splitOnP Char.isWhitespace).filter (fun w => ¬ w.isEmpty)

/-- Python `set(str.split())`. -/
def wordSet (s : List Char) : Finset (List Char) := (splitWs s).toFinset

-- ==================== Colour converter (tools.py) ====================

/-- `_lovibond_to_ebc` from `mcp_grocy/tools.py`: `lovibond * 2.63`. -/
def lovibondToEbc (lovibond : ℚ) : ℚ := lovibond * 2.63

/-- `_ebc_to_lovibond` from `mcp_grocy/tools.py`: `ebc / 2.63`. -/
def ebcToLovibond (ebc : ℚ) : ℚ := ebc / 2.63

-- ==================== Colour converter (brewing_common/units.py) ====================

namespace Units

/-- `srm_to_ebc` from `brewing_common/units.py`: `srm * 1.97`. -/
def srmToEbc (srm : ℚ) : ℚ := srm * 1.97

/-- `ebc_to_srm` from `brewing_common/units.py`: `ebc / 1.97`. -/
def ebcToSrm (ebc : ℚ) : ℚ := ebc / 1.97

/-- `lovibond_to_ebc` from `brewing_common/units.py`:
`srm = 1.3546 * lovibond - 0.76; srm_to_ebc (max 0 srm)`. -/
def lovibondToEbc (lovibond : ℚ) : ℚ :=
  srmToEbc (max 0 (1.3546 * lovibond - 0.76))

/-- `ebc_to_lovibond` from `brewing_common/units.py`:
`(ebc_to_srm ebc + 0.76) / 1.3546`. -/
def ebcToLovibond (ebc : ℚ) : ℚ :=
  (ebcToSrm ebc + 0.76) / 1.3546

end Units

-- ==================== Colour match score ====================

/-- `_calculate_color_match_score` from `mcp_grocy/tools.py`. -/
def calculateColorMatchScore (targetEbc productEbcMin productEbcMax : ℚ)
    (tolerance : ℚ := 30) : ℚ :=
  -- if product_ebc_min <= target_ebc <= product_ebc_max: return 100.0
  if productEbcMin ≤ targetEbc ∧ targetEbc ≤ productEbcMax then 100
  else
    let distance : ℚ :=
      if targetEbc < productEbcMin then productEbcMin - targetEbc
      else targetEbc - productEbcMax
    if tolerance < distance then 0
    else max 0 (100 - distance / tolerance * 50)

-- ==================== Maltster brand extraction ====================

/-- `MALTSTER_BRANDS` from `mcp_grocy/tools.py`, in source order. -/
def MALTSTER_BRANDS : List (List Char) :=
  [str "bestmalz", str "best",
   str "weyermann",
   str "simpsons", str "simpson",
   str "crisp",
   str "thomas fawcett", str "fawcett",
   str "warminster",
   str "muntons",
   str "pauls malt", str "pauls",
   str "castle malting", str "château", str "chateau",
   str "briess",
   str "great western",
   str "rahr",
   str "dingemans",
   str "franco-belges",
   str "malt craft",
   str "gladfield"]

/-- Alias canonicalisation inside `_extract_maltster`. -/
def canonicalBrand (brand : List Char) : List Char :=
  if brand = str "best" ∨ brand = str "bestmalz" then str "bestmalz"
  else if brand = str "simpson" ∨ brand = str "simpsons" then str "simpsons"
  else if brand = str "fawcett" ∨ brand = str "thomas fawcett" then str "thomas fawcett"
  else if brand = str "château" ∨ brand = str "chateau" ∨ brand = str "castle malting" then
    str "castle malting"
  else if brand = str "pauls" ∨ brand = str "pauls malt" then str "pauls malt"
  else brand

/-- `_extract_maltster` from `mcp_grocy/tools.py`. -/
def extractMaltster (name : List Char) : Option (List Char) :=
  if name.isEmpty then none
  else
    let nameLower := lowerL name
    (MALTSTER_BRANDS.find? (fun b => infixOf b nameLower)).map canonicalBrand

/-- `_is_crystal_malt` from `mcp_grocy/tools.py`. -/
def isCrystalMalt (name : List Char) : Bool :=
  let nameLower := lowerL name
  [str "crystal", str "caramel", str "cara", str "caramalt", str "carapils",
   str "caramunich", str "carared", str "carahell"].any
    (fun kw => infixOf kw nameLower)

-- ==================== Regex pattern matcher ====================

/-- One element of a regex pattern, covering exactly the constructs used by
the fixed patterns in `mcp_grocy/tools.py`: literal runs, greedy bounded
character classes, `\b` word boundaries, negative/positive lookaheads and
alternation.  Each element carries the number (`Nat`) of the capture group it
belongs to, `0` meaning "not captured". -/
inductive RElem where
  /-- A literal character run, e.g. `EBC`. -/
  | lit : List Char → Nat → RElem
  /-- A greedy character class with repetition bounds `lo`..`hi`
  (`hi = none` meaning unbounded), e.g. `\d+`, `\s*`, `-?`, `\d{2,3}`. -/
  | cls : (Char → Bool) → Nat → Option Nat → Nat → RElem
  /-- `\b` word boundary. -/
  | bnd : RElem
  /-- Negative lookahead `(?! ... )`. -/
  | nlk : List RElem → RElem
  /-- Positive lookahead `(?= ... )`. -/
  | plk : List RElem → RElem
  /-- Alternation `(a|b|...)`, each branch a sub-pattern. -/
  | alt : List (List RElem) → RElem

/-- Is `c` a regex word character (`\w`, for `\b` boundaries)? -/
def isWordChar (c : Char) : Bool := c.isAlphanum || c = '_'

/-- Does a `\b` boundary stand between `prev` and `next`? -/
def isBoundary (prev next : Option Char) : Bool :=
  (match prev with | some c => isWordChar c | none => false) ≠
  (match next with | some c => isWordChar c | none => false)

/-- Last character of `l`, falling back to `prev` when `l` is empty. -/
def lastOr (prev : Option Char) (l : List Char) : Option Char :=
  match l.getLast? with
  | some c => some c
  | none => prev

/-- Backtracking matcher: try to match the pattern `items` at the start of
`s`, with `prev` the character just before `s` (for `\b`).  On success
returns the new `prev`, the remaining input and the list of
(group, captured text) pieces in sequence order.  `fuel` bounds recursion
depth; every call below supplies far more than the patterns can consume. -/
def rxM : Nat → List RElem → Option Char → List Char →
    Option (Option Char × List Char × List (Nat × List Char))
  | 0, _, _, _ => none
  | _ + 1, [], prev, s => some (prev, s, [])
  | fuel + 1, e :: rest, prev, s =>
    match e with
    | .lit cs g =>
      if s.take cs.length = cs then
        (rxM fuel rest (lastOr prev cs) (s.drop cs.length)).map
          (fun r => (r.1, r.2.1, (g, cs) :: r.2.2))
      else none
    | .cls p lo hi g =>
      let run := (s.takeWhile p).length
      let maxN := match hi with | none => run | some h => min run h
      if maxN < lo then none
      else
        -- greedy: try maxN, maxN-1, ..., lo characters
        ((List.range (maxN + 1 - lo)).map (fun k => maxN - k)).findSome?
          (fun n =>
            (rxM fuel rest (lastOr prev (s.take n)) (s.drop n)).map
              (fun r => (r.1, r.2.1, (g, s.take n) :: r.2.2)))
    | .bnd =>
      if isBoundary prev s.head? then rxM fuel rest prev s else none
    | .nlk sub =>
      if (rxM fuel sub prev s).isSome then none else rxM fuel rest prev s
    | .plk sub =>
      if (rxM fuel sub prev s).isSome then rxM fuel rest prev s else none
    | .alt branches =>
      branches.findSome? (fun b => rxM fuel (b ++ rest) prev s)

/-- Try to match `items` at successive start positions (Python `re.search`
semantics: leftmost successful start wins), returning the capture pieces. -/
def rxSearchAux (fuel : Nat) (items : List RElem) :
    Option Char → List Char → Option (List (Nat × List Char))
  | prev, s =>
    match rxM fuel items prev s with
    | some r => some r.2.2
    | none =>
      match s with
      | [] => none
      | c :: restS => rxSearchAux fuel items (some c) restS

/-- `re.search(pattern, t)`: fuel is proportional to the input, far above
the depth the fixed patterns can recurse to. -/
def rxSearch (items : List RElem) (t : List Char) : Option (List (Nat × List Char)) :=
  rxSearchAux (8 * t.length + 800) items none t

/-- Concatenated text of capture group `g`. -/
def capGroup (caps : List (Nat × List Char)) (g : Nat) : List Char :=
  (caps.filter (fun p => p.1 = g)).map Prod.snd |>.flatten

/-- Numeric value of a captured digit run (`float(match.group(i))`, which is
always applied to `\d+` captures, hence a natural number). -/
def capNat (caps : List (Nat × List Char)) (g : Nat) : ℕ :=
  (capGroup caps g).foldl (fun a c => a * 10 + (c.toNat - 48)) 0

-- Character classes used by the patterns
/-- `\d` -/
def dC (c : Char) : Bool := c.isDigit
/-- `\s` (Python whitespace) -/
def sC (c : Char) : Bool := c.isWhitespace
/-- `[:\s]` -/
def csC (c : Char) : Bool := c = ':' || c.isWhitespace
/-- `[-–]` -/
def dashC (c : Char) : Bool := c = '-' || c = '–'
/-- `°` -/
def degC (c : Char) : Bool := c = '°'
/-- `.` -/
def anyC (_ : Char) : Bool := true
/-- `\w` -/
def wC (c : Char) : Bool := isWordChar c
/-- apostrophe (for `Mangrove Jack(?:'?s)?`) -/
def apoC (c : Char) : Bool := c = '\''

-- ==================== Malt colour spec parser ====================

/-- `source` tag of a parsed colour band (the Python code uses the strings
`"lovibond"`, `"ebc_range"`, `"ebc_single"`, `"beersmith"`). -/
inductive ColorSource where
  | lovibond | ebcRange | ebcSingle | beersmith
deriving DecidableEq, Repr

/-- Result dictionary of `_parse_malt_color` (and of the supplied-colour
construction in `_find_ingredient_substitutes`). -/
structure ColorBand where
  lovibond : ℚ
  ebcMin : ℚ
  ebcMax : ℚ
  ebcMid : ℚ
  source : ColorSource
deriving DecidableEq, Repr

/-- Band built by the Lovibond patterns of `_parse_malt_color`. -/
def lovibondBand (n : ℕ) : ColorBand :=
  let ebc := lovibondToEbc n
  ⟨n, ebc, ebc, ebc, .lovibond⟩

/-- Band built by the EBC-range patterns of `_parse_malt_color`. -/
def ebcRangeBand (a b : ℕ) : ColorBand :=
  let mid : ℚ := ((a : ℚ) + b) / 2
  ⟨ebcToLovibond mid, a, b, mid, .ebcRange⟩

/-- Band built by the single-EBC patterns of `_parse_malt_color`. -/
def ebcSingleBand (n : ℕ) : ColorBand :=
  ⟨ebcToLovibond n, n, n, n, .ebcSingle⟩

/-- Band built in `_find_ingredient_substitutes` from a supplied
`color_lovibond` hint. -/
def suppliedBand (colorLovibond : ℚ) : ColorBand :=
  let ebc := lovibondToEbc colorLovibond
  ⟨colorLovibond, ebc, ebc, ebc, .beersmith⟩

/-- `r'(\d+)\s*°?\s*L\b'` -/
def patLov1 : List RElem :=
  [.cls dC 1 none 1, .cls sC 0 none 0, .cls degC 0 (some 1) 0,
   .cls sC 0 none 0, .lit (str "L") 0, .bnd]

/-- `r'CRYSTAL\s*(\d+)\b(?!\s*EBC)'` -/
def patLov2 : List RElem :=
  [.lit (str "CRYSTAL") 0, .cls sC 0 none 0, .cls dC 1 none 1, .bnd,
   .nlk [.cls sC 0 none 0, .lit (str "EBC") 0]]

/-- `r'CARAMEL\s*(\d+)\b(?!\s*EBC)'` -/
def patLov3 : List RElem :=
  [.lit (str "CARAMEL") 0, .cls sC 0 none 0, .cls dC 1 none 1, .bnd,
   .nlk [.cls sC 0 none 0, .lit (str "EBC") 0]]

/-- `r'EBC[:\s]*(\d+)\s*[-–]\s*(\d+)'` -/
def patRange1 : List RElem :=
  [.lit (str "EBC") 0, .cls csC 0 none 0, .cls dC 1 none 1,
   .cls sC 0 none 0, .cls dashC 1 (some 1) 0, .cls sC 0 none 0, .cls dC 1 none 2]

/-- `r'(\d+)\s*[-–]\s*(\d+)\s*EBC'` -/
def patRange2 : List RElem :=
  [.cls dC 1 none 1, .cls sC 0 none 0, .cls dashC 1 (some 1) 0,
   .cls sC 0 none 0, .cls dC 1 none 2, .cls sC 0 none 0, .lit (str "EBC") 0]

/-- `r'EBC[:\s]*(\d+)(?!\s*[-–])'` -/
def patSingle1 : List RElem :=
  [.lit (str "EBC") 0, .cls csC 0 none 0, .cls dC 1 none 1,
   .nlk [.cls sC 0 none 0, .cls dashC 1 (some 1) 0]]

/-- `r'(\d+)\s*EBC\b'` -/
def patSingle2 : List RElem :=
  [.cls dC 1 none 1, .cls sC 0 none 0, .lit (str "EBC") 0, .bnd]

/-- `_parse_malt_color` from `mcp_grocy/tools.py`: try the Lovibond
patterns, then the EBC-range patterns, then the single-EBC patterns, on the
uppercased text; build the corresponding band from the captured numbers. -/
def parseMaltColor (text : List Char) : Option ColorBand :=
  if text.isEmpty then none
  else
    match [patLov1, patLov2, patLov3].findSome? (fun p => rxSearch p (upperL text)) with
    | some caps => some (lovibondBand (capNat caps 1))
    | none =>
      match [patRange1, patRange2].findSome? (fun p => rxSearch p (upperL text)) with
      | some caps => some (ebcRangeBand (capNat caps 1) (capNat caps 2))
      | none =>
        match [patSingle1, patSingle2].findSome? (fun p => rxSearch p (upperL text)) with
        | some caps => some (ebcSingleBand (capNat caps 1))
        | none => none

-- ==================== Yeast matching utilities ====================

/-- `YEAST_ID_PATTERNS` from `mcp_grocy/tools.py`: per lab (in source/dict
order) the ordered list of ID-recognition patterns.  The text is uppercased
before searching and every pattern is compiled with `re.IGNORECASE`, so
literals are written uppercase here. -/
def YEAST_ID_PATTERNS : List (List Char × List (List RElem)) :=
  [(str "fermentis",
    [ -- r"\b(US-?\d{2})\b"
     [.bnd, .lit (str "US") 1, .cls dashC 0 (some 1) 1, .cls dC 2 (some 2) 1, .bnd],
     -- r"\b(S-?\d{2,3})\b"
     [.bnd, .lit (str "S") 1, .cls dashC 0 (some 1) 1, .cls dC 2 (some 3) 1, .bnd],
     -- r"\b(K-?\d{2})\b"
     [.bnd, .lit (str "K") 1, .cls dashC 0 (some 1) 1, .cls dC 2 (some 2) 1, .bnd],
     -- r"\b(W-?\d{2})\b"
     [.bnd, .lit (str "W") 1, .cls dashC 0 (some 1) 1, .cls dC 2 (some 2) 1, .bnd],
     -- r"\bSafale\s+(US-?\d{2})\b"
     [.bnd, .lit (str "SAFALE") 0, .cls sC 1 none 0,
      .lit (str "US") 1, .cls dashC 0 (some 1) 1, .cls dC 2 (some 2) 1, .bnd],
     -- r"\bSaflager\s+(S-?\d{2,3}|W-?\d{2})\b"
     [.bnd, .lit (str "SAFLAGER") 0, .cls sC 1 none 0,
      .alt [[.lit (str "S") 1, .cls dashC 0 (some 1) 1, .cls dC 2 (some 3) 1],
            [.lit (str "W") 1, .cls dashC 0 (some 1) 1, .cls dC 2 (some 2) 1]],
      .bnd]]),
   (str "white_labs",
    [ -- r"\b(WLP\d{3})\b"
     [.bnd, .lit (str "WLP") 1, .cls dC 3 (some 3) 1, .bnd]]),
   (str "wyeast",
    [ -- r"\b(\d{4})\b(?=.*(?:wyeast|activator))"
     [.bnd, .cls dC 4 (some 4) 1, .bnd,
      .plk [.cls anyC 0 none 0,
            .alt [[.lit (str "WYEAST") 0], [.lit (str "ACTIVATOR") 0]]]],
     -- r"\bWyeast\s+(\d{4})\b"
     [.bnd, .lit (str "WYEAST") 0, .cls sC 1 none 0, .cls dC 4 (some 4) 1, .bnd]]),
   (str "mangrove_jacks",
    [ -- r"\b(M\d{2})\b"
     [.bnd, .lit (str "M") 1, .cls dC 2 (some 2) 1, .bnd],
     -- r"\bMangrove\s+Jack(?:'?s)?\s+(M\d{2})\b"
     [.bnd, .lit (str "MANGROVE") 0, .cls sC 1 none 0, .lit (str "JACK") 0,
      .alt [[.cls apoC 0 (some 1) 0, .lit (str "S") 0], []],
      .cls sC 1 none 0, .lit (str "M") 1, .cls dC 2 (some 2) 1, .bnd]]),
   (str "lallemand",
    [ -- r"\b(BRY-?\d+)\b"
     [.bnd, .lit (str "BRY") 1, .cls dashC 0 (some 1) 1, .cls dC 1 none 1, .bnd],
     -- r"\b(CBC-?\d+)\b"
     [.bnd, .lit (str "CBC") 1, .cls dashC 0 (some 1) 1, .cls dC 1 none 1, .bnd],
     -- r"\bLalBrew\s+(\w+)\b"
     [.bnd, .lit (str "LALBREW") 0, .cls sC 1 none 0, .cls wC 1 none 1, .bnd]]),
   (str "omega",
    [ -- r"\b(OYL-?\d{3})\b"
     [.bnd, .lit (str "OYL") 1, .cls dashC 0 (some 1) 1, .cls dC 3 (some 3) 1, .bnd]]),
   (str "imperial",
    [ -- r"\bImperial\s+(A\d{2})\b"
     [.bnd, .lit (str "IMPERIAL") 0, .cls sC 1 none 0,
      .lit (str "A") 1, .cls dC 2 (some 2) 1, .bnd],
     -- r"\b(A\d{2})\b(?=.*imperial)"
     [.bnd, .lit (str "A") 1, .cls dC 2 (some 2) 1, .bnd,
      .plk [.cls anyC 0 none 0, .lit (str "IMPERIAL") 0]]])]

/-- `YEAST_EQUIVALENTS` from `mcp_grocy/tools.py`, in source order. -/
def YEAST_EQUIVALENTS : List (List Char × List (List Char)) :=
  [(str "us-05", [str "wlp001", str "wyeast 1056", str "1056", str "safale us-05", str "bry-97"]),
   (str "wlp001", [str "us-05", str "wyeast 1056", str "1056", str "safale us-05"]),
   (str "1056", [str "us-05", str "wlp001", str "safale us-05"]),
   (str "s-04", [str "wlp007", str "wyeast 1098", str "1098"]),
   (str "wlp007", [str "s-04", str "wyeast 1098", str "1098"]),
   (str "1098", [str "s-04", str "wlp007"]),
   (str "m47", [str "wlp550", str "wyeast 3522", str "3522"]),
   (str "wlp550", [str "m47", str "wyeast 3522", str "3522"]),
   (str "3522", [str "m47", str "wlp550"]),
   (str "w-34/70", [str "wlp830", str "wyeast 2124", str "2124", str "s-189"]),
   (str "s-189", [str "w-34/70", str "wlp830", str "wyeast 2124"]),
   (str "wlp830", [str "w-34/70", str "s-189", str "wyeast 2124"]),
   (str "2124", [str "w-34/70", str "s-189", str "wlp830"]),
   (str "wlp300", [str "wyeast 3068", str "3068"]),
   (str "3068", [str "wlp300"]),
   (str "oyl-061", [str "voss kveik"])]

/-- `_normalize_yeast_id`: lowercase and strip `-` and spaces. -/
def normalizeYeastId (yeastId : List Char) : List Char :=
  (lowerL yeastId).filter (fun c => ¬ (c = '-' ∨ c = ' '))

/-- Result dictionary of `_extract_yeast_id`. -/
structure YeastId where
  id : List Char
  lab : List Char
  normalized : List Char
deriving DecidableEq, Repr

/-- `_extract_yeast_id` from `mcp_grocy/tools.py`: try each lab's patterns
in order on the uppercased name; the first hit wins. -/
def extractYeastId (name : List Char) : Option YeastId :=
  if name.isEmpty then none
  else
    let nameUpper := upperL name
    YEAST_ID_PATTERNS.findSome? (fun labPats =>
      labPats.2.findSome? (fun pat =>
        (rxSearch pat nameUpper).map (fun caps =>
          let yid := capGroup caps 1
          ⟨upperL yid, labPats.1, normalizeYeastId yid⟩)))

/-- `_get_yeast_equivalents` from `mcp_grocy/tools.py`. -/
def getYeastEquivalents (yeastId : List Char) : List (List Char) :=
  let normalized := normalizeYeastId yeastId
  (YEAST_EQUIVALENTS.findSome? (fun kv =>
    if normalizeYeastId kv.1 = normalized then some kv.2
    else if (kv.2.map normalizeYeastId).contains normalized then
      some (kv.1 :: kv.2.filter (fun e => ¬ normalizeYeastId e = normalized))
    else none)).getD []

/-- `_is_yeast_product` from `mcp_grocy/tools.py`. -/
def isYeastProduct (name : List Char) : Bool :=
  let nameLower := lowerL name
  ([str "yeast", str "ale yeast", str "lager yeast", str "safale", str "saflager",
    str "wyeast", str "white labs", str "wlp", str "mangrove jack", str "lallemand",
    str "lalbrew", str "fermentis", str "omega", str "imperial yeast", str "kveik",
    str "starter", str "activator", str "dry yeast", str "liquid yeast"].any
      (fun kw => infixOf kw nameLower))
  || (extractYeastId name).isSome

/-- `_map_lab_name` from `mcp_grocy/tools.py`: first alias that occurs as a
substring of the lowercased lab name wins; otherwise the lowercased name. -/
def mapLabName (labName : List Char) : List Char :=
  if labName.isEmpty then str "unknown"
  else
    let labLower := lowerL labName
    let mappings : List (List Char × List Char) :=
      [(str "fermentis", str "fermentis"), (str "safale", str "fermentis"),
       (str "saflager", str "fermentis"), (str "lesaffre", str "fermentis"),
       (str "white labs", str "white_labs"), (str "whitelabs", str "white_labs"),
       (str "wlp", str "white_labs"),
       (str "wyeast", str "wyeast"), (str "wyeast laboratories", str "wyeast"),
       (str "mangrove jack", str "mangrove_jacks"), (str "mangrove jacks", str "mangrove_jacks"),
       (str "mangrove jack's", str "mangrove_jacks"),
       (str "lallemand", str "lallemand"), (str "lalbrew", str "lallemand"),
       (str "lalvin", str "lallemand"),
       (str "omega", str "omega"), (str "omega yeast", str "omega"),
       (str "omega yeast labs", str "omega"),
       (str "imperial", str "imperial"), (str "imperial yeast", str "imperial"),
       (str "imperial organic yeast", str "imperial")]
    ((mappings.find? (fun pc => infixOf pc.1 labLower)).map Prod.snd).getD labLower

-- ==================== Match data model ====================

/-- A candidate product (`product.get("name", "")`, `.get("description", "")`,
`.get("id")` in the Python dictionaries). -/
structure Product where
  id : ℕ
  name : List Char
  description : List Char
deriving DecidableEq, Repr

/-- The `match_type` tags assigned by the engine (Python uses the strings
`"exact"`, `"yeast_id"`, `"lab_name"`, `"fuzzy_name"`, `"color"`,
`"contains"`, `"partial"`, `"word_overlap"`, `"equivalent"`,
`"different_maltster"`; `partialMatch` stands for `"partial"`). -/
inductive MatchType where
  | exact | yeast_id | lab_name | fuzzy_name | color | contains | partialMatch
  | word_overlap | equivalent | different_maltster
deriving DecidableEq, Repr

/-- One scored candidate, as appended to the `matches`/`substitutes` lists.
The free-form `details` rationale dictionary is not modelled (it feeds no
decision and no claim inspects it). -/
structure MatchInfo where
  productId : ℕ
  productName : List Char
  score : ℚ
  matchType : MatchType
  stockAmount : Option ℚ
deriving DecidableEq, Repr

/-- The conditional `stock_amount` lookup:
`stock_map = {s["product_id"]: s for s in stock}` (later entries win) and a
hit only when the map is non-empty and holds the id. -/
def stockLookup (stock : List (ℕ × ℚ)) (pid : ℕ) : Option ℚ :=
  (stock.reverse.find? (fun s => s.1 = pid)).map Prod.snd

-- ==================== `_match_yeast` ====================

/-- Python `str.replace("-", " ")` (level-2 word splitting). -/
def replDash (s : List Char) : List Char :=
  s.map (fun c => if c = '-' then ' ' else c)

/-- Level-2 filler words in `_match_yeast`. -/
def yeastFiller2 : Finset (List Char) :=
  [str "yeast", str "ale", str "lager", str "dry", str "liquid", str "the",
   str "a"].toFinset

/-- Level-3 filler words in `_match_yeast`. -/
def yeastFiller3 : Finset (List Char) :=
  [str "yeast", str "the", str "a", str "an", str "-", str "/"].toFinset

/-- Builds the `match_info` dictionary appended to a result list: id and
name copied from the product, conditional stock amount, and the score and
`match_type` the firing rule assigned. -/
def mkMatchInfo (stock : List (ℕ × ℚ)) (p : Product) (st : ℚ × MatchType) :
    MatchInfo :=
  ⟨p.id, p.name, st.1, st.2, stockLookup stock p.id⟩

/-- One loop iteration of `_match_yeast` (levels 1–3) for a single product:
the score and `match_type` assigned, or `none` when the iteration appends
nothing. -/
def yeastLevel123 (ingredientName : List Char) (ingredientYeast : Option YeastId)
    (ingredientNormalized : Option (List Char)) (p : Product) :
    Option (ℚ × MatchType) :=
  if ¬ isYeastProduct p.name then none
  else
    let productYeast := extractYeastId p.name
    -- Level 1: product ID exact match
    if (match ingredientNormalized, productYeast with
        | some n, some q => decide (n = q.normalized)
        | _, _ => false) then
      some (100, .yeast_id)
    -- Level 2: lab match + name similarity
    else if (match ingredientYeast, productYeast with
        | some iy, some py =>
          decide (iy.lab = py.lab) &&
          (let ingWords := wordSet (replDash (lowerL ingredientName)) \ yeastFiller2
           let prodWords := wordSet (replDash (lowerL p.name)) \ yeastFiller2
           !decide (ingWords = ∅) && !decide (prodWords = ∅) &&
           decide (2 ≤ (ingWords ∩ prodWords).card))
        | _, _ => false) then
      some (80, .lab_name)
    else
      -- Level 3: high-threshold fuzzy name matching
      let ingWords := wordSet (replSep (lowerL ingredientName)) \ yeastFiller3
      let prodWords := wordSet (replSep (lowerL p.name)) \ yeastFiller3
      if ¬ ingWords = ∅ ∧ ¬ prodWords = ∅ then
        let overlap := (ingWords ∩ prodWords).card
        let total := (ingWords ∪ prodWords).card
        if 0 < overlap then
          let wordScore : ℚ := ((overlap : ℚ) / total) * 100
          if 60 ≤ wordScore then some (wordScore * 0.7, .fuzzy_name)
          else none
        else none
      else none

/-- Stable descending insertion by score (keeps existing elements with equal
or higher score first). -/
def insertDesc (m : MatchInfo) : List MatchInfo → List MatchInfo
  | [] => [m]
  | h :: t => if m.score ≤ h.score then h :: insertDesc m t else m :: h :: t

/-- `list.sort(key=lambda x: x["score"], reverse=True)`: stable descending
sort by score (Python's sort is stable; insertion keeps original order for
equal scores). -/
def sortDesc (l : List MatchInfo) : List MatchInfo :=
  l.foldl (fun acc m => insertDesc m acc) []

/-- `_match_yeast` from `mcp_grocy/tools.py`.  Hints model Python optional
string arguments; the callers pass either `None` or a non-empty string, so
`Option` captures the `if lab:`/`if yeast_product_id:` truthiness tests. -/
def matchYeast (ingredientName : List Char) (products : List Product)
    (stock : List (ℕ × ℚ)) (lab yeastProductId : Option (List Char)) :
    List MatchInfo :=
  let ingredientYeast : Option YeastId :=
    match yeastProductId with
    | some code =>
      some ⟨upperL code, (lab.map mapLabName).getD (str "unknown"), normalizeYeastId code⟩
    | none => extractYeastId ingredientName
  let ingredientNormalized := ingredientYeast.map YeastId.normalized
  let base := products.filterMap (fun p =>
    (yeastLevel123 ingredientName ingredientYeast ingredientNormalized p).map
      (mkMatchInfo stock p))
  -- Level 4: functional equivalents among still-unmatched products
  let final :=
    match ingredientNormalized with
    | none => base
    | some n =>
      let equivalents := getYeastEquivalents n
      if equivalents.isEmpty then base
      else
        products.foldl (fun ms p =>
          if ms.any (fun m => m.productId = p.id) then ms
          else
            match extractYeastId p.name with
            | some q =>
              if equivalents.any (fun e => normalizeYeastId e = q.normalized) then
                ms ++ [⟨p.id, p.name, 40, .equivalent, stockLookup stock p.id⟩]
              else ms
            | none => ms) base
  sortDesc final

-- ==================== `_find_ingredient_substitutes` ====================

/-- Filler words of the malt/generic path. -/
def fillerMalt : Finset (List Char) :=
  [str "malt", str "malts", str "the", str "a", str "an", str "-",
   str "/"].toFinset

/-- The effective ingredient maltster in `_find_ingredient_substitutes`:
`_extract_maltster(supplier) or supplier.lower()` when a supplier hint is
given, else `_extract_maltster(ingredient_name)`. -/
def effectiveMaltster (supplier : Option (List Char)) (ingredientName : List Char) :
    Option (List Char) :=
  match supplier with
  | some s => some ((extractMaltster s).getD (lowerL s))
  | none => extractMaltster ingredientName

/-- The crystal-malt colour branch of the `_find_ingredient_substitutes`
loop body: fires only when both query and product are crystal-classified,
the query has a colour band and the product's name or description parses to
one, and the colour score is positive. -/
def colorAttempt (ingredientColor : Option ColorBand) (isCrystal : Bool)
    (toleranceEbc : ℚ) (p : Product) : Option (ℚ × MatchType) :=
  match ingredientColor with
  | some ic =>
    if isCrystal ∧ isCrystalMalt p.name then
      match (parseMaltColor p.name).orElse (fun _ => parseMaltColor p.description) with
      | some pc =>
        let colorScore :=
          calculateColorMatchScore ic.ebcMid pc.ebcMin pc.ebcMax toleranceEbc
        if 0 < colorScore then some (colorScore, .color)
        else none
      | none => none
    else none
  | none => none

/-- Word set of a lowered name for the word-overlap rule: split on
whitespace after mapping `-` and `/` to spaces, drop the filler words, and
drop the words of the detected maltster brand (if any). -/
def strippedWords (maltster : Option (List Char)) (lowName : List Char) :
    Finset (List Char) :=
  match maltster with
  | some b => (wordSet (replSep lowName) \ fillerMalt) \ wordSet b
  | none => wordSet (replSep lowName) \ fillerMalt

/-- The fuzzy-matching tail of the `_find_ingredient_substitutes` loop body:
exact / contains (brand-guarded) / partial / word-overlap. -/
def fuzzyScore (ingredientMaltster productMaltster : Option (List Char))
    (ingredientName : List Char) (p : Product) : Option (ℚ × MatchType) :=
  let nameLower := lowerL ingredientName
  let productNameLower := lowerL p.name
  -- exact match
  if nameLower = productNameLower then some (100, .exact)
  -- contains match, brand-guarded when the ingredient carries a brand
  else if infixOf nameLower productNameLower then
    match ingredientMaltster with
    | some im =>
      if infixOf im productNameLower then some (85, .contains)
      else none
    | none => some (85, .contains)
  -- partial match
  else if infixOf productNameLower nameLower then
    some (75, .partialMatch)
  -- word-overlap matching
  else
    let nameWords := strippedWords ingredientMaltster nameLower
    let productWords := strippedWords productMaltster productNameLower
    if ¬ nameWords = ∅ ∧ ¬ productWords = ∅ then
      let overlap := (nameWords ∩ productWords).card
      let total := (nameWords ∪ productWords).card
      if 0 < overlap then
        let wordScore : ℚ := ((overlap : ℚ) / total) * 70
        if 30 ≤ wordScore then some (wordScore, .word_overlap)
        else none
      else none
    else none

def scoreProductRest (ingredientColor : Option ColorBand) (isCrystal : Bool)
    (ingredientMaltster productMaltster : Option (List Char))
    (toleranceEbc : ℚ) (ingredientName : List Char) (p : Product) :
    Option (ℚ × MatchType) :=
  match colorAttempt ingredientColor isCrystal toleranceEbc p with
  | some st => some st
  | none => fuzzyScore ingredientMaltster productMaltster ingredientName p

/-- One loop iteration of `_find_ingredient_substitutes` for a single
product: maltster-brand gate first (exact match still allowed, otherwise at
most a low-score `different_maltster` suggestion), then `scoreProductRest`. -/
def scoreProduct (ingredientName : List Char) (ingredientColor : Option ColorBand)
    (isCrystal : Bool) (ingredientMaltster : Option (List Char))
    (toleranceEbc : ℚ) (p : Product) : Option (ℚ × MatchType) :=
  let productMaltster := extractMaltster p.name
  let nameLower := lowerL ingredientName
  let productNameLower := lowerL p.name
  match ingredientMaltster, productMaltster with
  | some im, some pm =>
    if ¬ im = pm then
      -- different maltsters: only exact matches or a low-score suggestion
      if nameLower = productNameLower then some (100, .exact)
      else
        let maltsterWords := wordSet im ∪ wordSet pm
        let nameWords := (wordSet (replSep nameLower) \ fillerMalt) \ maltsterWords
        let productWords := (wordSet (replSep productNameLower) \ fillerMalt) \ maltsterWords
        if ¬ nameWords = ∅ ∧ ¬ productWords = ∅ ∧
            2 ≤ (nameWords ∩ productWords).card then
          some (30, .different_maltster)
        else none
    else
      scoreProductRest ingredientColor isCrystal ingredientMaltster productMaltster
        toleranceEbc ingredientName p
  | _, _ =>
    scoreProductRest ingredientColor isCrystal ingredientMaltster productMaltster
      toleranceEbc ingredientName p

/-- The ingredient colour band used by `_find_ingredient_substitutes`: the
supplied BeerSmith colour when given, else a parse of the ingredient name. -/
def ingredientColorOf (colorLovibond : Option ℚ) (ingredientName : List Char) :
    Option ColorBand :=
  match colorLovibond with
  | some cl => some (suppliedBand cl)
  | none => parseMaltColor ingredientName

/-- `_find_ingredient_substitutes` from `mcp_grocy/tools.py`. -/
def findIngredientSubstitutes (ingredientName : List Char) (products : List Product)
    (stock : List (ℕ × ℚ)) (toleranceEbc : ℚ)
    (supplier lab productIdHint : Option (List Char))
    (colorLovibond : Option ℚ) : List MatchInfo :=
  if lab.isSome || productIdHint.isSome || isYeastProduct ingredientName then
    matchYeast ingredientName products stock lab productIdHint
  else
    let ingredientColor := ingredientColorOf colorLovibond ingredientName
    let isCrystal := isCrystalMalt ingredientName
    let ingredientMaltster := effectiveMaltster supplier ingredientName
    sortDesc (products.filterMap (fun p =>
      (scoreProduct ingredientName ingredientColor isCrystal ingredientMaltster
        toleranceEbc p).map (mkMatchInfo stock p)))

-- ==================== `_smart_match_ingredient` ====================

/-- The result dictionary of `_smart_match_ingredient`.  The Python
"found" dictionary carries no `suggestions` key and the "not found"
dictionary carries no `is_exact`/`requires_confirmation` keys; absent keys
are modelled as `[]`/`false`. -/
structure MatchResult where
  found : Bool
  ingredient : List Char
  bestMatch : Option MatchInfo
  alternatives : List MatchInfo
  suggestions : List MatchInfo
  isExact : Bool
  requiresConfirmation : Bool
deriving DecidableEq, Repr

/-- `_smart_match_ingredient` from `mcp_grocy/tools.py` (the `origin`
argument is accepted and unused, exactly as in the source; the call to
`_find_ingredient_substitutes` does not forward `tolerance_ebc`, so the
default 30 is always used). -/
def smartMatchIngredient (ingredientName : List Char) (products : List Product)
    (stock : List (ℕ × ℚ)) (minScore : ℚ)
    (supplier _origin lab productIdHint : Option (List Char))
    (colorLovibond : Option ℚ) : MatchResult :=
  let substitutes :=
    findIngredientSubstitutes ingredientName products stock 30 supplier lab
      productIdHint colorLovibond
  let validMatches := substitutes.filter (fun s => minScore ≤ s.score)
  match validMatches with
  | [] =>
    let suggestions := substitutes.filter (fun s => 0 < s.score)
    ⟨false, ingredientName, none, [], suggestions.take 3, false, false⟩
  | best :: rest =>
    ⟨true, ingredientName, some best, rest.take 4, [],
     decide ((best.matchType = .exact ∧ best.score = 100) ∨
             (best.matchType = .yeast_id ∧ best.score = 100)),
     decide (best.matchType = .equivalent ∨ best.matchType = .different_maltster)⟩

-- ==================== Helper lemmas ====================

theorem mem_insertDesc (a m : MatchInfo) (l : List MatchInfo) :
    a ∈ insertDesc m l ↔ a = m ∨ a ∈ l := by
  induction l with
  | nil => simp [insertDesc]
  | cons h t ih =>
    by_cases hc : m.score ≤ h.score
    · simp only [insertDesc, if_pos hc, List.mem_cons, ih]
      try tauto
    · simp only [insertDesc, if_neg hc, List.mem_cons]
      try tauto

theorem pairwise_insertDesc (m : MatchInfo) (l : List MatchInfo)
    (hl : l.Pairwise (fun a b => b.score ≤ a.score)) :
    (insertDesc m l).Pairwise (fun a b => b.score ≤ a.score) := by
  induction l with
  | nil => simp [insertDesc]
  | cons h t ih =>
    rcases List.pairwise_cons.mp hl with ⟨hh, ht⟩
    by_cases hc : m.score ≤ h.score
    · simp only [insertDesc, if_pos hc]
      refine List.pairwise_cons.mpr ⟨?_, ih ht⟩
      intro b hb
      rcases (mem_insertDesc b m t).mp hb with rfl | hbt
      · exact hc
      · exact hh b hbt
    · simp only [insertDesc, if_neg hc]
      refine List.pairwise_cons.mpr ⟨?_, hl⟩
      intro b hb
      rcases List.mem_cons.mp hb with rfl | hbt
      · exact le_of_not_le hc
      · exact le_trans (hh b hbt) (le_of_not_le hc)

theorem mem_sortDesc_aux (a : MatchInfo) :
    ∀ (l acc : List MatchInfo),
      (a ∈ l.foldl (fun acc m => insertDesc m acc) acc ↔ a ∈ acc ∨ a ∈ l)
  | [], acc => by simp
  | h :: t, acc => by
    rw [List.foldl_cons, mem_sortDesc_aux a t (insertDesc h acc),
      mem_insertDesc]
    simp only [List.mem_cons]
    tauto

theorem mem_sortDesc (a : MatchInfo) (l : List MatchInfo) :
    a ∈ sortDesc l ↔ a ∈ l := by
  unfold sortDesc
  rw [mem_sortDesc_aux]
  simp

theorem pairwise_sortDesc_aux :
    ∀ (l acc : List MatchInfo),
      acc.Pairwise (fun a b => b.score ≤ a.score) →
      (l.foldl (fun acc m => insertDesc m acc) acc).Pairwise
        (fun a b => b.score ≤ a.score)
  | [], _, hacc => hacc
  | h :: t, acc, hacc => by
    rw [List.foldl_cons]
    exact pairwise_sortDesc_aux t (insertDesc h acc) (pairwise_insertDesc h acc hacc)

theorem pairwise_sortDesc (l : List MatchInfo) :
    (sortDesc l).Pairwise (fun a b => b.score ≤ a.score) :=
  pairwise_sortDesc_aux l [] (List.Pairwise.nil)

-- ==================== Claim theorems ====================

/-- C5: the colour match score is 100 inside the candidate band
`[pmin, pmax]`; outside it decays linearly with the distance `d` to the
nearest band edge, reaching exactly 50 at `d = tolerance` and 0 beyond it;
in particular for band `[140, 160]` and tolerance 30, target 190 scores
exactly 50 and target 221 scores 0. -/
theorem C5_color_match_score (target pmin pmax tol : ℚ)
    (hband : pmin ≤ pmax) (htol : 0 < tol) :
    (pmin ≤ target ∧ target ≤ pmax →
      calculateColorMatchScore target pmin pmax tol = 100) ∧
    (target < pmin →
      (pmin - target ≤ tol →
        calculateColorMatchScore target pmin pmax tol =
          100 - (pmin - target) / tol * 50) ∧
      (tol < pmin - target →
        calculateColorMatchScore target pmin pmax tol = 0)) ∧
    (pmax < target →
      (target - pmax ≤ tol →
        calculateColorMatchScore target pmin pmax tol =
          100 - (target - pmax) / tol * 50) ∧
      (tol < target - pmax →
        calculateColorMatchScore target pmin pmax tol = 0)) ∧
    calculateColorMatchScore 190 140 160 30 = 50 ∧
    calculateColorMatchScore 221 140 160 30 = 0 := by
  refine ⟨?_, ?_, ?_, by norm_num [calculateColorMatchScore], by
    norm_num [calculateColorMatchScore]⟩
  · intro hin
    simp [calculateColorMatchScore, hin]
  · intro hlt
    have hnotin : ¬ (pmin ≤ target ∧ target ≤ pmax) := by
      intro hcon
      linarith [hcon.1]
    constructor
    · intro hd
      have h50 : (pmin - target) / tol * 50 ≤ 50 := by
        have h1 : (pmin - target) / tol ≤ 1 := by
          rw [div_le_one htol]
          linarith
        nlinarith
      simp only [calculateColorMatchScore, if_neg hnotin, if_pos hlt]
      rw [if_neg (by linarith), max_eq_right (by linarith)]
    · intro hd
      simp only [calculateColorMatchScore, if_neg hnotin, if_pos hlt]
      rw [if_pos (by linarith)]
  · intro hgt
    have hnotin : ¬ (pmin ≤ target ∧ target ≤ pmax) := by
      intro hcon
      linarith [hcon.2]
    have hnotlt : ¬ target < pmin := by linarith
    constructor
    · intro hd
      have h50 : (target - pmax) / tol * 50 ≤ 50 := by
        have h1 : (target - pmax) / tol ≤ 1 := by
          rw [div_le_one htol]
          linarith
        nlinarith
      simp only [calculateColorMatchScore, if_neg hnotin, if_neg hnotlt]
      rw [if_neg (by linarith), max_eq_right (by linarith)]
    · intro hd
      simp only [calculateColorMatchScore, if_neg hnotin, if_neg hnotlt]
      rw [if_pos (by linarith)]

/-- Witness for C5 at the concrete spec inputs: band `[140, 160]`,
tolerance 30, target 190 sits at distance exactly 30 and scores 50. -/
theorem C5_color_match_score_witness :
    (140 : ℚ) ≤ 160 ∧ (0 : ℚ) < 30 ∧
    calculateColorMatchScore 190 140 160 30 = 50 := by
  refine ⟨by norm_num, by norm_num, ?_⟩
  exact (C5_color_match_score 190 140 160 30 (by norm_num) (by norm_num)).2.2.2.1

/-- C9: the matching engine's colour conversions are exact mutual inverses
on the nonnegative reals: `ebc_to_lovibond (lovibond_to_ebc l) = l`
(the claim's "within floating-point tolerance" holds exactly over `ℚ`). -/
theorem C9_color_round_trip (l : ℚ) (_hl : 0 ≤ l) :
    ebcToLovibond (lovibondToEbc l) = l := by
  unfold ebcToLovibond lovibondToEbc
  rw [mul_div_assoc, div_self (by norm_num), mul_one]

/-- Witness for C9 at `l = 3`. -/
theorem C9_color_round_trip_witness :
    (0 : ℚ) ≤ 3 ∧ ebcToLovibond (lovibondToEbc 3) = 3 :=
  ⟨by norm_num, C9_color_round_trip 3 (by norm_num)⟩

/-- Counterexample for C10: the two Lovibond→EBC conversions are different
functions.  At `l = 1` the matching engine returns `2.63` while the shared
library returns `1.171362`. -/
theorem C10_counterexample :
    lovibondToEbc 1 = 2.63 ∧ Units.lovibondToEbc 1 = 1.171362 ∧
    ¬ lovibondToEbc 1 = Units.lovibondToEbc 1 := by
  refine ⟨by norm_num [lovibondToEbc], ?_, ?_⟩ <;>
    norm_num [lovibondToEbc, Units.lovibondToEbc, Units.srmToEbc,
      max_eq_right (by norm_num : (0 : ℚ) ≤ 1.3546 * 1 - 0.76)]

/-- C10 amended: the two Lovibond→EBC conversions are different functions —
they agree exactly at `l = 0` and at the single crossing point
`l = 748600/19281 ≈ 38.8`; likewise the two EBC→Lovibond conversions agree
only at the single point `e = 1968818/19281 ≈ 102.1`. -/
theorem C10_conversions_agree_iff :
    (∀ l : ℚ, lovibondToEbc l = Units.lovibondToEbc l ↔
      (l = 0 ∨ l = 748600 / 19281)) ∧
    (∀ e : ℚ, ebcToLovibond e = Units.ebcToLovibond e ↔
      e = 1968818 / 19281) := by
  constructor
  · intro l
    unfold lovibondToEbc Units.lovibondToEbc Units.srmToEbc
    rcases le_total (1.3546 * l - 0.76) 0 with h | h
    · rw [max_eq_left h]
      constructor
      · intro he
        left
        nlinarith
      · rintro (rfl | rfl)
        · norm_num
        · norm_num at h
    · rw [max_eq_right h]
      constructor
      · intro he
        right
        nlinarith
      · rintro (rfl | rfl)
        · norm_num at h
        · norm_num
  · intro e
    unfold ebcToLovibond Units.ebcToLovibond Units.ebcToSrm
    constructor
    · intro he
      have h1 : e / 2.63 * (1.3546 * 1.97) = (e / 1.97 + 0.76) / 1.3546 * (1.3546 * 1.97) := by
        rw [he]
      field_simp at h1
      linarith
    · rintro rfl
      norm_num

/-- Witness for C10 amended: the two Lovibond→EBC conversions agree at
`l = 0`. -/
theorem C10_conversions_agree_iff_witness :
    lovibondToEbc 0 = Units.lovibondToEbc 0 :=
  (C10_conversions_agree_iff.1 0).mpr (Or.inl rfl)

/-- Counterexample for C8: on the text `"180-150 EBC"` (a reversed textual
range) the colour parser produces a band with `ebc_min = 180`,
`ebc_mid = 165`, `ebc_max = 150`, violating
`ebc_min ≤ ebc_mid ≤ ebc_max`. -/
theorem C8_counterexample :
    parseMaltColor (str "180-150 EBC") = some (ebcRangeBand 180 150) ∧
    (ebcRangeBand 180 150).ebcMin = 180 ∧
    (ebcRangeBand 180 150).ebcMid = 165 ∧
    (ebcRangeBand 180 150).ebcMax = 150 ∧
    ¬ (ebcRangeBand 180 150).ebcMin ≤ (ebcRangeBand 180 150).ebcMid := by
  refine ⟨by rfl, by norm_num [ebcRangeBand], by norm_num [ebcRangeBand],
    by norm_num [ebcRangeBand], by norm_num [ebcRangeBand]⟩

/-- C8 amended: every band the colour parser returns has
`ebc_mid = (ebc_min + ebc_max) / 2`; bands from the Lovibond and single-EBC
patterns (and, separately, supplied-colour bands) are points with
`ebc_min = ebc_mid = ebc_max`; and the full invariant
`ebc_min ≤ ebc_mid ≤ ebc_max` holds exactly when `ebc_min ≤ ebc_max` —
which the parser does not enforce for textual ranges written high-to-low. -/
theorem C8_amended (text : List Char) (c : ColorBand)
    (h : parseMaltColor text = some c) :
    c.ebcMid = (c.ebcMin + c.ebcMax) / 2 ∧
    (¬ c.source = .ebcRange → c.ebcMin = c.ebcMid ∧ c.ebcMid = c.ebcMax) ∧
    (c.ebcMin ≤ c.ebcMax → c.ebcMin ≤ c.ebcMid ∧ c.ebcMid ≤ c.ebcMax) ∧
    (∀ lov : ℚ, (suppliedBand lov).ebcMin = (suppliedBand lov).ebcMid ∧
      (suppliedBand lov).ebcMid = (suppliedBand lov).ebcMax) := by
  unfold parseMaltColor at h
  refine ?_
  split at h
  · exact absurd h (by simp)
  · split at h
    · rcases Option.some_injective _ h.symm with rfl
      refine ⟨by simp [lovibondBand], by simp [lovibondBand],
        by simp [lovibondBand], by simp [suppliedBand]⟩
    · split at h
      · rcases Option.some_injective _ h.symm with rfl
        refine ⟨by simp [ebcRangeBand], by simp [ebcRangeBand],
          ?_, by simp [suppliedBand]⟩
        intro hle
        simp only [ebcRangeBand] at hle ⊢
        constructor <;> linarith
      · split at h
        · rcases Option.some_injective _ h.symm with rfl
          refine ⟨by simp [ebcSingleBand], by simp [ebcSingleBand],
            by simp [ebcSingleBand], by simp [suppliedBand]⟩
        · exact absurd h (by simp)

/-- Witness for C8 amended at the parse of `"60L"` (a Lovibond point). -/
theorem C8_amended_witness :
    (lovibondBand 60).ebcMin = (lovibondBand 60).ebcMid ∧
    (lovibondBand 60).ebcMid = (lovibondBand 60).ebcMax :=
  (C8_amended (str "60L") (lovibondBand 60) (by rfl)).2.1 (by simp [lovibondBand])

theorem matchYeast_nil (n : List Char) (stock : List (ℕ × ℚ))
    (lab pid : Option (List Char)) : matchYeast n [] stock lab pid = [] := by
  unfold matchYeast
  cases pid with
  | some code => simp [sortDesc]
  | none =>
    cases h : extractYeastId n with
    | none => simp [h, sortDesc]
    | some y => simp [h, sortDesc]

theorem findSubs_nil (n : List Char) (stock : List (ℕ × ℚ)) (tol : ℚ)
    (supplier lab pid : Option (List Char)) (cl : Option ℚ) :
    findIngredientSubstitutes n [] stock tol supplier lab pid cl = [] := by
  unfold findIngredientSubstitutes
  split
  · exact matchYeast_nil n stock lab pid
  · simp [sortDesc]

/-- Counterexample for C6: an empty query name does not short-circuit.  The
empty string is a substring of every candidate name, so with a non-empty
catalog the `contains` rule fires at score 85 and the result has
`found = true` — not the `found = false` with empty lists the claim
promises for an empty query. -/
theorem C6_counterexample :
    smartMatchIngredient (str "") [⟨1, str "barley", str ""⟩] [] 50
        none none none none none =
      ⟨true, str "", some ⟨1, str "barley", 85, .contains, none⟩, [], [],
        false, false⟩ := by
  rfl

/-- C6 amended: an empty catalog does yield `found = false` with no best
match and empty alternative/suggestion lists, for every query and hints;
an empty query name, however, is not special-cased: against a non-empty
catalog it contains-matches every candidate at score 85 (so `found = true`,
as witnessed against the one-product catalog `["barley"]`). -/
theorem C6_amended :
    (∀ (name : List Char) (stock : List (ℕ × ℚ)) (ms : ℚ)
      (supplier origin lab pid : Option (List Char)) (cl : Option ℚ),
      smartMatchIngredient name [] stock ms supplier origin lab pid cl =
        ⟨false, name, none, [], [], false, false⟩) ∧
    (smartMatchIngredient (str "") [⟨1, str "barley", str ""⟩] [] 50
        none none none none none).found = true := by
  constructor
  · intro name stock ms supplier origin lab pid cl
    unfold smartMatchIngredient
    rw [findSubs_nil]
    rfl
  · rfl

/-- C3 amended: with query hint `product_code = "US-05"` and candidates
`["Safale US-05", "WLP001 California Ale"]`, the Safale candidate scores
100 with `match_type = yeast_id` and is the best match; the WLP001
candidate is scored 40 as `equivalent` in the internal substitutes list,
but with the default `min_score = 50` the returned result omits it
entirely: `alternatives` holds only candidates at or above `min_score`
and `suggestions` is only populated when nothing reaches `min_score`. -/
theorem C3_yeast_identity_precedence :
    findIngredientSubstitutes (str "US-05")
        [⟨1, str "Safale US-05", str ""⟩, ⟨2, str "WLP001 California Ale", str ""⟩]
        [] 30 none none (some (str "US-05")) none =
      [⟨1, str "Safale US-05", 100, .yeast_id, none⟩,
       ⟨2, str "WLP001 California Ale", 40, .equivalent, none⟩] ∧
    smartMatchIngredient (str "US-05")
        [⟨1, str "Safale US-05", str ""⟩, ⟨2, str "WLP001 California Ale", str ""⟩]
        [] 50 none none none (some (str "US-05")) none =
      ⟨true, str "US-05", some ⟨1, str "Safale US-05", 100, .yeast_id, none⟩,
        [], [], true, false⟩ := by
  exact ⟨rfl, rfl⟩

/-- Counterexample for C3: in the MatchResult actually returned for the
claim's inputs, the WLP001 candidate does not appear at all — the
`alternatives` and `suggestions` lists are empty and the best match is the
Safale candidate — contradicting the claim that WLP001 appears in the
returned result as an equivalent suggestion with score 40 (it is scored 40
as `equivalent` only in the internal substitutes list). -/
theorem C3_counterexample :
    (smartMatchIngredient (str "US-05")
        [⟨1, str "Safale US-05", str ""⟩, ⟨2, str "WLP001 California Ale", str ""⟩]
        [] 50 none none none (some (str "US-05")) none).alternatives = [] ∧
    (smartMatchIngredient (str "US-05")
        [⟨1, str "Safale US-05", str ""⟩, ⟨2, str "WLP001 California Ale", str ""⟩]
        [] 50 none none none (some (str "US-05")) none).suggestions = [] ∧
    (smartMatchIngredient (str "US-05")
        [⟨1, str "Safale US-05", str ""⟩, ⟨2, str "WLP001 California Ale", str ""⟩]
        [] 50 none none none (some (str "US-05")) none).bestMatch =
      some ⟨1, str "Safale US-05", 100, .yeast_id, none⟩ ∧
    ⟨2, str "WLP001 California Ale", 40, .equivalent, none⟩ ∈
      findIngredientSubstitutes (str "US-05")
        [⟨1, str "Safale US-05", str ""⟩, ⟨2, str "WLP001 California Ale", str ""⟩]
        [] 30 none none (some (str "US-05")) none := by
  refine ⟨rfl, rfl, rfl, ?_⟩
  rw [show findIngredientSubstitutes (str "US-05")
        [⟨1, str "Safale US-05", str ""⟩, ⟨2, str "WLP001 California Ale", str ""⟩]
        [] 30 none none (some (str "US-05")) none =
      [⟨1, str "Safale US-05", 100, .yeast_id, none⟩,
       ⟨2, str "WLP001 California Ale", 40, .equivalent, none⟩] from rfl]
  simp

/-- Counterexample for C1: when both names carry maltster brands but also
yeast strain codes, resolution takes the yeast path, which has no brand
gate: query `"bestmalz us-05"` (brand `bestmalz`) against candidate
`"simpsons us-05"` (brand `simpsons`, a different canonical brand, names
not equal) is scored 100 with `match_type = yeast_id` — not
`different_maltster`, and well above 75. -/
theorem C1_counterexample :
    extractMaltster (str "bestmalz us-05") = some (str "bestmalz") ∧
    extractMaltster (str "simpsons us-05") = some (str "simpsons") ∧
    ¬ lowerL (str "bestmalz us-05") = lowerL (str "simpsons us-05") ∧
    findIngredientSubstitutes (str "bestmalz us-05")
        [⟨7, str "simpsons us-05", str ""⟩] [] 30 none none none none =
      [⟨7, str "simpsons us-05", 100, .yeast_id, none⟩] := by
  refine ⟨rfl, rfl, by decide, rfl⟩

/-- Counterexample for C2: a case-insensitively equal candidate that takes
the yeast path is reported with `match_type = yeast_id`, not `exact`:
query `"safale us-05"` against catalog `["Safale US-05"]`. -/
theorem C2_counterexample :
    lowerL (str "Safale US-05") = lowerL (str "safale us-05") ∧
    smartMatchIngredient (str "safale us-05") [⟨3, str "Safale US-05", str ""⟩]
        [] 50 none none none none none =
      ⟨true, str "safale us-05",
        some ⟨3, str "Safale US-05", 100, .yeast_id, none⟩, [], [], true,
        false⟩ := by
  exact ⟨by decide, rfl⟩

/-- Counterexample for C7: sub-threshold candidates do not all surface as
suggestions.  Query `"amber malt"` against four candidates sharing the word
`amber` scores all four at 35 (positive, below the default threshold 50),
yet the returned `suggestions` list is capped at the top 3. -/
theorem C7_counterexample :
    (findIngredientSubstitutes (str "amber malt")
        [⟨1, str "amber one", str ""⟩, ⟨2, str "amber two", str ""⟩,
         ⟨3, str "amber three", str ""⟩, ⟨4, str "amber four", str ""⟩]
        [] 30 none none none none).length = 4 ∧
    ((findIngredientSubstitutes (str "amber malt")
        [⟨1, str "amber one", str ""⟩, ⟨2, str "amber two", str ""⟩,
         ⟨3, str "amber three", str ""⟩, ⟨4, str "amber four", str ""⟩]
        [] 30 none none none none).all
      (fun m => decide (0 < m.score ∧ m.score < 50))) = true ∧
    (smartMatchIngredient (str "amber malt")
        [⟨1, str "amber one", str ""⟩, ⟨2, str "amber two", str ""⟩,
         ⟨3, str "amber three", str ""⟩, ⟨4, str "amber four", str ""⟩]
        [] 50 none none none none none).found = false ∧
    (smartMatchIngredient (str "amber malt")
        [⟨1, str "amber one", str ""⟩, ⟨2, str "amber two", str ""⟩,
         ⟨3, str "amber three", str ""⟩, ⟨4, str "amber four", str ""⟩]
        [] 50 none none none none none).suggestions.length = 3 := by
  refine ⟨by decide, by decide, by rfl, by decide⟩

/-- C4: whenever resolution reports `found = true`, the
`requires_confirmation` flag is set exactly when the best match carries
`match_type` `equivalent` or `different_maltster`. -/
theorem C4_requires_confirmation (name : List Char) (products : List Product)
    (stock : List (ℕ × ℚ)) (ms : ℚ) (supplier origin lab pid : Option (List Char))
    (cl : Option ℚ)
    (hf : (smartMatchIngredient name products stock ms supplier origin lab pid cl).found
      = true) :
    ((smartMatchIngredient name products stock ms supplier origin lab pid cl).requiresConfirmation
        = true ↔
      ∃ m, (smartMatchIngredient name products stock ms supplier origin lab pid cl).bestMatch
          = some m ∧
        (m.matchType = .equivalent ∨ m.matchType = .different_maltster)) := by
  unfold smartMatchIngredient at hf ⊢
  dsimp only at hf ⊢
  rcases hv : (findIngredientSubstitutes name products stock 30 supplier lab pid cl).filter
      (fun s => decide (ms ≤ s.score)) with _ | ⟨best, rest⟩
  · rw [hv] at hf
    simp at hf
  · rw [hv] at hf ⊢
    simp only [decide_eq_true_eq, Option.some.injEq]
    constructor
    · intro h
      exact ⟨best, rfl, h⟩
    · rintro ⟨m, rfl, h⟩
      exact h

/-- Witness for C4: a found result whose best match is a plain exact match
has `requires_confirmation = false`. -/
theorem C4_requires_confirmation_witness :
    (smartMatchIngredient (str "Barley") [⟨9, str "barley", str ""⟩] [] 50
      none none none none none).requiresConfirmation = false := by
  have h := C4_requires_confirmation (str "Barley") [⟨9, str "barley", str ""⟩]
    [] 50 none none none none none (by rfl)
  by_cases hb : (smartMatchIngredient (str "Barley") [⟨9, str "barley", str ""⟩]
      [] 50 none none none none none).requiresConfirmation = true
  · rcases h.mp hb with ⟨m, hm, hty⟩
    rw [show (smartMatchIngredient (str "Barley") [⟨9, str "barley", str ""⟩]
        [] 50 none none none none none).bestMatch =
      some ⟨9, str "barley", 100, .exact, none⟩ from rfl] at hm
    rcases Option.some_injective _ hm with rfl
    rcases hty with h' | h' <;> exact absurd h' (by decide)
  · simpa using hb

-- ==================== Structural lemmas for the malt path ====================

theorem findSubs_malt_eq (q : List Char) (products : List Product)
    (stock : List (ℕ × ℚ)) (tol : ℚ) (supplier : Option (List Char))
    (colorL : Option ℚ) (hy : isYeastProduct q = false) :
    findIngredientSubstitutes q products stock tol supplier none none colorL =
      sortDesc (products.filterMap (fun p =>
        (scoreProduct q (ingredientColorOf colorL q) (isCrystalMalt q)
          (effectiveMaltster supplier q) tol p).map (mkMatchInfo stock p))) := by
  unfold findIngredientSubstitutes
  rw [if_neg (by simp [hy])]

theorem findSubs_malt_mem (q : List Char) (products : List Product)
    (stock : List (ℕ × ℚ)) (tol : ℚ) (supplier : Option (List Char))
    (colorL : Option ℚ) (hy : isYeastProduct q = false) (m : MatchInfo)
    (hm : m ∈ findIngredientSubstitutes q products stock tol supplier none none colorL) :
    ∃ p ∈ products, ∃ st,
      scoreProduct q (ingredientColorOf colorL q) (isCrystalMalt q)
        (effectiveMaltster supplier q) tol p = some st ∧
      m = mkMatchInfo stock p st := by
  rw [findSubs_malt_eq q products stock tol supplier colorL hy, mem_sortDesc,
    List.mem_filterMap] at hm
  obtain ⟨p, hp, hsome⟩ := hm
  obtain ⟨st, hst, hmk⟩ := Option.map_eq_some'.mp hsome
  exact ⟨p, hp, st, hst, hmk.symm⟩

theorem scoreProduct_dm (q : List Char) (ic : Option ColorBand) (isc : Bool)
    (b1 : List Char) (tol : ℚ) (p : Product) (b2 : List Char)
    (st : ℚ × MatchType)
    (hpm : extractMaltster p.name = some b2) (hne : ¬ b1 = b2)
    (hnm : ¬ lowerL q = lowerL p.name)
    (h : scoreProduct q ic isc (some b1) tol p = some st) :
    st = (30, .different_maltster) := by
  unfold scoreProduct at h
  dsimp only at h
  rw [hpm] at h
  dsimp only at h
  rw [if_pos hne, if_neg hnm] at h
  split at h
  · injection h with h'
    exact h'.symm
  · exact absurd h (by simp)

theorem colorAttempt_not_crystal (ic : Option ColorBand) (tol : ℚ)
    (p : Product) : colorAttempt ic false tol p = none := by
  rcases ic with _ | ic' <;> simp [colorAttempt]

theorem fuzzyScore_exact (im pm : Option (List Char)) (q : List Char)
    (p : Product) (hnm : lowerL q = lowerL p.name) :
    fuzzyScore im pm q p = some (100, .exact) := by
  unfold fuzzyScore
  dsimp only
  rw [if_pos hnm]

theorem scoreProductRest_exact (ic : Option ColorBand)
    (im pm : Option (List Char)) (tol : ℚ) (q : List Char) (p : Product)
    (hnm : lowerL q = lowerL p.name) :
    scoreProductRest ic false im pm tol q p = some (100, .exact) := by
  unfold scoreProductRest
  rw [colorAttempt_not_crystal]
  exact fuzzyScore_exact im pm q p hnm

theorem scoreProduct_exact (q : List Char) (ic : Option ColorBand)
    (im : Option (List Char)) (tol : ℚ) (p : Product)
    (hnm : lowerL q = lowerL p.name) :
    scoreProduct q ic false im tol p = some (100, .exact) := by
  unfold scoreProduct
  dsimp only
  rcases im with _ | im' <;> rcases hpm : extractMaltster p.name with _ | pm <;>
      simp only [hpm]
  · exact scoreProductRest_exact _ _ _ _ _ _ hnm
  · exact scoreProductRest_exact _ _ _ _ _ _ hnm
  · exact scoreProductRest_exact _ _ _ _ _ _ hnm
  · by_cases heq : im' = pm
    · rw [if_neg (not_not_intro heq)]
      exact scoreProductRest_exact _ _ _ _ _ _ hnm
    · rw [if_pos heq, if_pos hnm]

theorem wordScore_le_70 (A B : Finset (List Char)) (hA : ¬ A = ∅) :
    (((A ∩ B).card : ℚ) / ((A ∪ B).card : ℚ)) * 70 ≤ 70 := by
  have hAne : A.Nonempty := Finset.nonempty_iff_ne_empty.mpr hA
  have ht : 0 < (A ∪ B).card :=
    Finset.card_pos.mpr (hAne.mono Finset.subset_union_left)
  have ho : (A ∩ B).card ≤ (A ∪ B).card :=
    Finset.card_le_card Finset.inter_subset_union
  have h1 : (((A ∩ B).card : ℚ) / ((A ∪ B).card : ℚ)) ≤ 1 := by
    rw [div_le_one (by exact_mod_cast ht)]
    exact_mod_cast ho
  have h0 : (0 : ℚ) ≤ (((A ∩ B).card : ℚ) / ((A ∪ B).card : ℚ)) := by
    positivity
  nlinarith

theorem fuzzyScore_sound (im pm : Option (List Char)) (q : List Char)
    (p : Product) (st : ℚ × MatchType) (h : fuzzyScore im pm q p = some st) :
    st.1 ≤ 100 ∧ (st.1 = 100 → st.2 = .exact ∧ lowerL q = lowerL p.name) := by
  unfold fuzzyScore at h
  dsimp only at h
  split at h
  case isTrue hx =>
    injection h with h'
    obtain rfl := h'.symm
    exact ⟨by norm_num, fun _ => ⟨rfl, hx⟩⟩
  case isFalse hx =>
    split at h
    case isTrue hcont =>
      split at h
      · split at h
        · injection h with h'
          obtain rfl := h'.symm
          exact ⟨by norm_num, fun hc => absurd hc (by norm_num)⟩
        · exact absurd h (by simp)
      · injection h with h'
        obtain rfl := h'.symm
        exact ⟨by norm_num, fun hc => absurd hc (by norm_num)⟩
    case isFalse hcont =>
      split at h
      case isTrue hpart =>
        injection h with h'
        obtain rfl := h'.symm
        exact ⟨by norm_num, fun hc => absurd hc (by norm_num)⟩
      case isFalse hpart =>
        split at h
        case isFalse hw => exact absurd h (by simp)
        case isTrue hw =>
          split at h
          case isFalse ho => exact absurd h (by simp)
          case isTrue ho =>
            split at h
            case isFalse hws => exact absurd h (by simp)
            case isTrue hws =>
              injection h with h'
              obtain rfl := h'.symm
              have hb := wordScore_le_70 (strippedWords im (lowerL q))
                (strippedWords pm (lowerL p.name)) hw.1
              refine ⟨by dsimp only; linarith, fun hc => ?_⟩
              dsimp only at hc
              rw [hc] at hb
              norm_num at hb

theorem scoreProductRest_sound (ic : Option ColorBand)
    (im pm : Option (List Char)) (tol : ℚ) (q : List Char) (p : Product)
    (st : ℚ × MatchType)
    (h : scoreProductRest ic false im pm tol q p = some st) :
    st.1 ≤ 100 ∧ (st.1 = 100 → st.2 = .exact ∧ lowerL q = lowerL p.name) := by
  unfold scoreProductRest at h
  rw [colorAttempt_not_crystal] at h
  exact fuzzyScore_sound im pm q p st h

theorem scoreProduct_sound (q : List Char) (ic : Option ColorBand)
    (im : Option (List Char)) (tol : ℚ) (p : Product) (st : ℚ × MatchType)
    (h : scoreProduct q ic false im tol p = some st) :
    st.1 ≤ 100 ∧ (st.1 = 100 → st.2 = .exact ∧ lowerL q = lowerL p.name) := by
  unfold scoreProduct at h
  dsimp only at h
  rcases im with _ | im' <;> rcases hpm : extractMaltster p.name with _ | pm <;>
      rw [hpm] at h <;> dsimp only at h
  · exact scoreProductRest_sound _ _ _ _ _ _ _ h
  · exact scoreProductRest_sound _ _ _ _ _ _ _ h
  · exact scoreProductRest_sound _ _ _ _ _ _ _ h
  · split at h
    case isFalse heq => exact scoreProductRest_sound _ _ _ _ _ _ _ h
    case isTrue heq =>
      split at h
      case isTrue hx =>
        injection h with h'
        obtain rfl := h'.symm
        exact ⟨by norm_num, fun _ => ⟨rfl, hx⟩⟩
      case isFalse hx =>
        split at h
        · injection h with h'
          obtain rfl := h'.symm
          exact ⟨by norm_num, fun hc => absurd hc (by norm_num)⟩
        · exact absurd h (by simp)

theorem pairwise_findSubs (q : List Char) (products : List Product)
    (stock : List (ℕ × ℚ)) (tol : ℚ) (supplier lab pid : Option (List Char))
    (colorL : Option ℚ) :
    (findIngredientSubstitutes q products stock tol supplier lab pid colorL).Pairwise
      (fun a b => b.score ≤ a.score) := by
  unfold findIngredientSubstitutes
  split
  · unfold matchYeast
    dsimp only
    exact pairwise_sortDesc _
  · dsimp only
    exact pairwise_sortDesc _

/-- C1 amended: provided resolution routes the query to the malt/generic
path (no `lab`/`product_code` hints and the name is not yeast-like),
whenever the effective query brand (the supplier hint if given, else the
brand extracted from the query name) and the candidate's extracted brand
are both detected and differ, and the names are not case-insensitively
equal, every scored entry for that candidate carries
`match_type = different_maltster` and score ≤ 30 — never `contains`,
`partial`, or any score ≥ 75. -/
theorem C1_brand_gating (q : List Char) (products : List Product)
    (stock : List (ℕ × ℚ)) (tol : ℚ) (supplier : Option (List Char))
    (colorL : Option ℚ) (b1 b2 : List Char) (cand : Product) (m : MatchInfo)
    (hy : isYeastProduct q = false)
    (h1 : effectiveMaltster supplier q = some b1)
    (h2 : extractMaltster cand.name = some b2)
    (hne : ¬ b1 = b2) (hnm : ¬ lowerL q = lowerL cand.name)
    (hm : m ∈ findIngredientSubstitutes q products stock tol supplier none none colorL)
    (hname : m.productName = cand.name) :
    m.matchType = .different_maltster ∧ m.score ≤ 30 := by
  obtain ⟨p, _hp, st, hst, rfl⟩ :=
    findSubs_malt_mem q products stock tol supplier colorL hy m hm
  have hpn : p.name = cand.name := hname
  rw [h1] at hst
  have hdm := scoreProduct_dm q (ingredientColorOf colorL q) (isCrystalMalt q)
    b1 tol p b2 st (by rw [hpn]; exact h2) hne (by rw [hpn]; exact hnm) hst
  obtain rfl := hdm
  exact ⟨rfl, le_refl _⟩

/-- Witness for C1 amended: query `"BEST Pale Ale"` with supplier hint
`"BESTMALZ"` against the candidate `"Weyermann Pale Ale"` (different
detected brand, two shared non-brand words) surfaces exactly as a
`different_maltster` entry with score ≤ 30. -/
theorem C1_brand_gating_witness :
    (⟨6, str "Weyermann Pale Ale", 30, .different_maltster, none⟩ : MatchInfo).matchType
        = .different_maltster ∧
    (⟨6, str "Weyermann Pale Ale", 30, .different_maltster, none⟩ : MatchInfo).score
        ≤ 30 :=
  C1_brand_gating (str "BEST Pale Ale") [⟨6, str "Weyermann Pale Ale", str ""⟩]
    [] 30 (some (str "BESTMALZ")) none (str "bestmalz") (str "weyermann")
    ⟨6, str "Weyermann Pale Ale", str ""⟩
    ⟨6, str "Weyermann Pale Ale", 30, .different_maltster, none⟩
    (by rfl) (by rfl) (by rfl) (by decide) (by decide) (by decide) (by rfl)

/-- C2 amended: provided resolution routes the query to the malt/generic
path (no `lab`/`product_code` hints, not yeast-like) and the query is not
crystal-classified (so the colour branch cannot intercept), if some
catalog entry's name case-insensitively equals the query name then the
result is found with a best match of score 100, `match_type = exact`, and a
name case-insensitively equal to the query — regardless of all other
candidates' scores (for a `min_score` threshold at most 100). -/
theorem C2_exact_match_dominance (q : List Char) (products : List Product)
    (stock : List (ℕ × ℚ)) (ms : ℚ) (supplier origin : Option (List Char))
    (colorL : Option ℚ) (c : Product)
    (hy : isYeastProduct q = false) (hcr : isCrystalMalt q = false)
    (hc : c ∈ products) (hname : lowerL c.name = lowerL q) (hms : ms ≤ 100) :
    (smartMatchIngredient q products stock ms supplier origin none none colorL).found
      = true ∧
    ∃ m, (smartMatchIngredient q products stock ms supplier origin none none colorL).bestMatch
        = some m ∧
      m.score = 100 ∧ m.matchType = .exact ∧ lowerL m.productName = lowerL q := by
  have hsubs := findSubs_malt_eq q products stock 30 supplier colorL hy
  rw [hcr] at hsubs
  have hcs : scoreProduct q (ingredientColorOf colorL q) false
      (effectiveMaltster supplier q) 30 c = some (100, .exact) :=
    scoreProduct_exact q _ _ 30 c hname.symm
  have heS : mkMatchInfo stock c (100, .exact) ∈
      findIngredientSubstitutes q products stock 30 supplier none none colorL := by
    rw [hsubs, mem_sortDesc]
    exact List.mem_filterMap.mpr ⟨c, hc, by rw [hcs]; rfl⟩
  rcases hsl : findIngredientSubstitutes q products stock 30 supplier none none colorL
    with _ | ⟨h0, t0⟩
  · rw [hsl] at heS
    exact absurd heS (by simp)
  · have hPW : (h0 :: t0).Pairwise (fun a b => b.score ≤ a.score) := by
      rw [← hsl]
      exact pairwise_findSubs q products stock 30 supplier none none colorL
    have hmem100 : (100 : ℚ) ≤ h0.score := by
      rw [hsl] at heS
      rcases List.mem_cons.mp heS with hhe | hhe
      · rw [← hhe]
        exact le_refl _
      · exact (List.pairwise_cons.mp hPW).1 _ hhe
    have hall : ∀ x ∈ h0 :: t0, x.score ≤ 100 ∧
        (x.score = 100 → x.matchType = .exact ∧ lowerL x.productName = lowerL q) := by
      intro x hx
      rw [← hsl] at hx
      obtain ⟨p, _hp, st, hst, rfl⟩ :=
        findSubs_malt_mem q products stock 30 supplier colorL hy x hx
      rw [hcr] at hst
      have hs := scoreProduct_sound q _ _ 30 p st hst
      refine ⟨hs.1, fun hx100 => ?_⟩
      obtain ⟨hty, hlo⟩ := hs.2 hx100
      exact ⟨hty, hlo.symm⟩
    have hh0 := hall h0 (List.mem_cons_self _ _)
    have hh100 : h0.score = 100 := le_antisymm hh0.1 hmem100
    obtain ⟨hty, hlow⟩ := hh0.2 hh100
    unfold smartMatchIngredient
    dsimp only
    rw [hsl, List.filter_cons_of_pos
      (by exact decide_eq_true (by rw [hh100]; exact hms))]
    exact ⟨rfl, h0, rfl, hh100, hty, hlow⟩

/-- Witness for C2 amended: query `"Barley"` against catalog `["barley"]`
resolves found. -/
theorem C2_exact_match_dominance_witness :
    (smartMatchIngredient (str "Barley") [⟨9, str "barley", str ""⟩] [] 50
      none none none none none).found = true :=
  (C2_exact_match_dominance (str "Barley") [⟨9, str "barley", str ""⟩] [] 50
    none none none ⟨9, str "barley", str ""⟩ (by rfl) (by rfl) (by simp)
    (by decide) (by norm_num)).1

/-- C7 amended: the scored substitutes are sorted descending by score;
`best_match` is the head of the above-threshold prefix (so exactly the top
candidate when its score ≥ `min_score`); `alternatives` are the 2nd–5th
above-threshold candidates; but `suggestions` are returned only when no
candidate reaches `min_score`, and then hold only the top 3
positive-score candidates (not every sub-threshold one). -/
theorem C7_ranking (q : List Char) (products : List Product)
    (stock : List (ℕ × ℚ)) (ms : ℚ) (supplier origin lab pid : Option (List Char))
    (colorL : Option ℚ) :
    (findIngredientSubstitutes q products stock 30 supplier lab pid colorL).Pairwise
      (fun a b => b.score ≤ a.score) ∧
    ((smartMatchIngredient q products stock ms supplier origin lab pid colorL).found = true ↔
      ∃ m ∈ findIngredientSubstitutes q products stock 30 supplier lab pid colorL,
        ms ≤ m.score) ∧
    (smartMatchIngredient q products stock ms supplier origin lab pid colorL).bestMatch =
      ((findIngredientSubstitutes q products stock 30 supplier lab pid colorL).filter
        (fun s => ms ≤ s.score)).head? ∧
    (smartMatchIngredient q products stock ms supplier origin lab pid colorL).alternatives =
      (((findIngredientSubstitutes q products stock 30 supplier lab pid colorL).filter
        (fun s => ms ≤ s.score)).drop 1).take 4 ∧
    ((smartMatchIngredient q products stock ms supplier origin lab pid colorL).found = false →
      (smartMatchIngredient q products stock ms supplier origin lab pid colorL).suggestions =
        ((findIngredientSubstitutes q products stock 30 supplier lab pid colorL).filter
          (fun s => 0 < s.score)).take 3) := by
  refine ⟨pairwise_findSubs q products stock 30 supplier lab pid colorL, ?_⟩
  unfold smartMatchIngredient
  dsimp only
  rcases hv : (findIngredientSubstitutes q products stock 30 supplier lab pid colorL).filter
      (fun s => decide (ms ≤ s.score)) with _ | ⟨b, r⟩
  · refine ⟨?_, by rw [hv]; rfl, by rw [hv]; rfl, fun _ => by rw [hv]⟩
    rw [hv]
    constructor
    · intro hctr
      exact absurd (show false = true from hctr) (by decide)
    · rintro ⟨m, hmem, hsc⟩
      have := List.filter_eq_nil_iff.mp hv m hmem
      simp only [decide_eq_true_eq] at this
      exact absurd hsc this
  · refine ⟨?_, by rw [hv]; rfl, by rw [hv]; rfl,
      fun hctr => by
        rw [hv] at hctr
        exact absurd (show true = false from hctr) (by decide)⟩
    rw [hv]
    refine ⟨fun _ => ?_, fun _ => by rfl⟩
    have hb : b ∈ (findIngredientSubstitutes q products stock 30 supplier lab pid colorL).filter
        (fun s => decide (ms ≤ s.score)) := by
      rw [hv]
      exact List.mem_cons_self _ _
    obtain ⟨hmem, hsc⟩ := List.mem_filter.mp hb
    exact ⟨b, hmem, of_decide_eq_true hsc⟩

/-- Witness for C7 amended: against an empty catalog nothing is found and
the suggestions equal the (empty) capped positive-score list. -/
theorem C7_ranking_witness :
    (smartMatchIngredient (str "pale ale") [] [] 50 none none none none none).suggestions =
      ((findIngredientSubstitutes (str "pale ale") [] [] 30 none none none none).filter
        (fun s => 0 < s.score)).take 3 :=
  (C7_ranking (str "pale ale") [] [] 50 none none none none none).2.2.2.2 (by rfl)

end Brewing
